import Mathlib

/-!
Verification development for the ArtifexAI audit orchestration engine.

The definitions below are shallow embeddings of the TypeScript sources:
  * `apps/api/src/routes.ts` — HTTP handlers, the audit session state
    machine (`simulateAuditProgress` / `processNextStage`), `pickTool`,
    the inline results-statistics block;
  * `apps/api/src/huntExecutor.ts` — the agentic hunt loop's tool
    resolution, argument-shape fallback and `extractFindingsFromText`;
  * `packages/mcp` client — `createMcpClient` and `withTimeout`.

Modelling conventions, stated once here:
  * JavaScript values flowing through `JSON.parse` and untyped property
    access are modelled by the inductive `Json` below; JSON numbers are
    modelled as rationals (JS numbers are IEEE doubles; none of the
    verified claims depends on float rounding).
  * A missing object property and an explicit `null` are collapsed to
    `Json.null` wherever the source only distinguishes them through
    truthiness, `typeof x === "number"` or `Array.isArray` (all of which
    treat `undefined` and `null` alike); schema validation, where zod
    does distinguish a missing key from `null`, uses an `Option Json`
    lookup instead.
  * Log entries are append-only and purely presentational (their content
    is never read back by the program); the session `logs` field is
    therefore elided from the state-machine model, which tracks the
    fields the API contracts depend on: `stage`, `progress`, `findings`,
    the stored hunt list and the run configuration.
-/

/-- A JavaScript/JSON value, as produced by `JSON.parse`. -/
inductive Json where
  | null : Json
  | bool : Bool → Json
  | num : ℚ → Json
  | str : String → Json
  | arr : List Json → Json
  | obj : List (String × Json) → Json
  deriving Repr

/-- JavaScript truthiness of a JSON value (`undefined` collapses to
`Json.null`). `NaN` is not representable in the rational model. -/
def Json.truthy : Json → Bool
  | .null => false
  | .bool b => b
  | .num n => n != 0
  | .str s => s != ""
  | .arr _ => true
  | .obj _ => true

/-- Property lookup on a parsed JSON value: `none` models `undefined`
(missing key or access on a non-object). `JSON.parse` keeps the last
occurrence of a duplicated key, so the last binding wins. -/
def Json.lookup (j : Json) (key : String) : Option Json :=
  match j with
  | .obj fields => (fields.reverse.find? (fun kv => kv.1 == key)).map (·.2)
  | _ => none

/-- `j.key` in JS, with `undefined` collapsed to `Json.null` (sound for
truthiness / `typeof` / `Array.isArray` tests, which are the only uses). -/
def Json.get (j : Json) (key : String) : Json :=
  (j.lookup key).getD .null

/-- `a || b` in JS: left operand if truthy, otherwise the right one. -/
def jsOr (a b : Json) : Json := if a.truthy then a else b

/-- `Array.isArray(j) ? j : []`. -/
def Json.asArray : Json → List Json
  | .arr items => items
  | _ => []

/-- `Array.isArray(j)`. -/
def Json.isArr : Json → Bool
  | .arr _ => true
  | _ => false

/-- JS strict equality `j === "lit"` against a string literal: true
exactly when the value is that string (a non-string never compares
equal to a string literal under `===`). -/
def Json.eqStr (j : Json) (lit : String) : Bool :=
  match j with
  | .str s => s == lit
  | _ => false

/-- A `Finding`, as normalized by `extractFindingsFromText`
(`huntExecutor.ts`). The TS declarations type `id`, `severity`, `title`,
`description` and `recommendation` as strings, but the normalization
performs no runtime type check beyond truthiness, so those fields keep
the raw JSON value here. -/
structure Finding where
  id : Json
  severity : Json
  title : Json
  description : Json
  affectedEntities : List Json
  evidence : List Json
  evidenceCount : Nat
  confidence : ℚ
  queries : List Json
  recommendation : Json
  deriving Repr

/-- `String(n).padStart(3, "0")`. -/
def padStart3 (n : Nat) : String :=
  let s := toString n
  if s.length ≥ 3 then s
  else String.mk (List.replicate (3 - s.length) '0') ++ s

/-- One invocation of the map callback of `extractFindingsFromText`
(`huntExecutor.ts`). The callback's first statement reads `f.evidence`;
on a `null` candidate that property access throws a TypeError, modelled
as `none` (`JSON.parse` never yields `undefined`, and property access
on every other JSON value — booleans, numbers and strings are boxed —
does not throw). A non-null candidate is normalized into a `Finding`:
`f.id || default`, `f.severity || "medium"`,
`f.title || "Untitled Finding"`, `f.description || ""`, arrays
defaulted to `[]`, `evidenceCount` derived from `evidence.length`,
`typeof f.confidence === "number" ? f.confidence : 50`, and `queries`
replaced by the queries actually executed when the candidate's own
list is missing or empty. -/
def normalizeFinding (huntId : String) (executedQueries : List String)
    (idx : Nat) (f : Json) : Option Finding :=
  match f with
  | .null => none
  | _ =>
    let evidence := (f.get "evidence").asArray
    let queries :=
      if (f.get "queries").isArr && (f.get "queries").asArray.length > 0 then
        (f.get "queries").asArray
      else
        executedQueries.map Json.str
    some
      { id := jsOr (f.get "id") (.str (huntId ++ "-F" ++ padStart3 (idx + 1)))
        severity := jsOr (f.get "severity") (.str "medium")
        title := jsOr (f.get "title") (.str "Untitled Finding")
        description := jsOr (f.get "description") (.str "")
        affectedEntities := (f.get "affectedEntities").asArray
        evidence := evidence
        evidenceCount := evidence.length
        confidence := match f.get "confidence" with
          | .num n => n
          | _ => 50
        queries := queries
        recommendation := jsOr (f.get "recommendation") (.str "") }

/-- `parsed.map(callback)` under JS exception semantics: the candidates
are processed left to right with their indices, and a throw inside the
callback aborts the whole map (the exception propagates to the
surrounding try/catch of `extractFindingsFromText`). -/
def normalizeAll (huntId : String) (executedQueries : List String) :
    Nat → List Json → Option (List Finding)
  | _, [] => some []
  | idx, c :: rest =>
    match normalizeFinding huntId executedQueries idx c with
    | none => none
    | some f =>
      match normalizeAll huntId executedQueries (idx + 1) rest with
      | none => none
      | some fs => some (f :: fs)

/-! ### A model of the `JSON.parse` builtin

`extractFindingsFromText` feeds the matched text to the platform's
`JSON.parse`. The builtin is modelled by the reference parser below:
strict JSON (RFC 8259) — the four whitespace characters, `null`,
booleans, strings with the standard escapes, numbers without leading
zeros, arrays and objects. Numbers are returned as rationals. The
`fuel` argument only bounds recursion depth; `jsParse` supplies more
fuel than any input can consume. -/

/-- Strip JSON whitespace (space, tab, LF, CR). -/
def skipWs : List Char → List Char
  | c :: cs =>
    if c = ' ' ∨ c = '\t' ∨ c = '\n' ∨ c = '\r' then skipWs cs else c :: cs
  | [] => []

/-- Hex digit value, if any. -/
def hexVal (c : Char) : Option Nat :=
  if '0' ≤ c ∧ c ≤ '9' then some (c.toNat - '0'.toNat)
  else if 'a' ≤ c ∧ c ≤ 'f' then some (c.toNat - 'a'.toNat + 10)
  else if 'A' ≤ c ∧ c ≤ 'F' then some (c.toNat - 'A'.toNat + 10)
  else none

/-- Body of a JSON string after the opening quote: standard escapes,
`\uXXXX` code units, raw control characters rejected. -/
def parseStringBody : List Char → Option (String × List Char)
  | [] => none
  | '"' :: rest => some ("", rest)
  | '\\' :: esc =>
    match esc with
    | '"' :: rest => (parseStringBody rest).map (fun p => ("\"" ++ p.1, p.2))
    | '\\' :: rest => (parseStringBody rest).map (fun p => ("\\" ++ p.1, p.2))
    | '/' :: rest => (parseStringBody rest).map (fun p => ("/" ++ p.1, p.2))
    | 'b' :: rest => (parseStringBody rest).map (fun p => ("\x08" ++ p.1, p.2))
    | 'f' :: rest => (parseStringBody rest).map (fun p => ("\x0c" ++ p.1, p.2))
    | 'n' :: rest => (parseStringBody rest).map (fun p => ("\n" ++ p.1, p.2))
    | 'r' :: rest => (parseStringBody rest).map (fun p => ("\r" ++ p.1, p.2))
    | 't' :: rest => (parseStringBody rest).map (fun p => ("\t" ++ p.1, p.2))
    | 'u' :: a :: b :: c :: d :: rest =>
      match hexVal a, hexVal b, hexVal c, hexVal d with
      | some ha, some hb, some hc, some hd =>
        let code := ((ha * 16 + hb) * 16 + hc) * 16 + hd
        let ch := if h : code.isValidChar then Char.ofNatAux code h else ' '
        (parseStringBody rest).map (fun p => (String.mk [ch] ++ p.1, p.2))
      | _, _, _, _ => none
    | _ => none
  | c :: rest =>
    if c.toNat < 32 then none
    else (parseStringBody rest).map (fun p => (String.mk [c] ++ p.1, p.2))

/-- Take a maximal run of decimal digits. -/
def takeDigits : List Char → List Char × List Char
  | c :: cs =>
    if '0' ≤ c ∧ c ≤ '9' then
      let p := takeDigits cs
      (c :: p.1, p.2)
    else ([], c :: cs)
  | [] => ([], [])

/-- Digits to a natural number. -/
def digitsToNat (ds : List Char) : Nat :=
  ds.foldl (fun acc c => acc * 10 + (c.toNat - '0'.toNat)) 0

/-- JSON number grammar: `-? (0 | [1-9][0-9]*) (. [0-9]+)? ([eE][+-]?[0-9]+)?`. -/
def parseNumber (cs : List Char) : Option (ℚ × List Char) :=
  let signed : Bool × List Char :=
    match cs with
    | '-' :: rest => (true, rest)
    | _ => (false, cs)
  let intPart : Option (Nat × List Char) :=
    match signed.2 with
    | '0' :: rest =>
      match rest with
      | c :: _ => if '0' ≤ c ∧ c ≤ '9' then none else some (0, rest)
      | [] => some (0, [])
    | c :: _ =>
      if '1' ≤ c ∧ c ≤ '9' then
        let p := takeDigits signed.2
        some (digitsToNat p.1, p.2)
      else none
    | [] => none
  match intPart with
  | none => none
  | some (ip, afterInt) =>
    let fracPart : Option (ℚ × List Char) :=
      match afterInt with
      | '.' :: rest =>
        let p := takeDigits rest
        if p.1.length = 0 then none
        else some ((digitsToNat p.1 : ℚ) / ((10 : ℚ) ^ p.1.length), p.2)
      | _ => some (0, afterInt)
    match fracPart with
    | none => none
    | some (fp, afterFrac) =>
      let expPart : Option (Int × List Char) :=
        match afterFrac with
        | 'e' :: rest | 'E' :: rest =>
          let signedE : Bool × List Char :=
            match rest with
            | '+' :: r => (false, r)
            | '-' :: r => (true, r)
            | _ => (false, rest)
          let p := takeDigits signedE.2
          if p.1.length = 0 then none
          else some (if signedE.1 then -(digitsToNat p.1 : Int) else (digitsToNat p.1 : Int), p.2)
        | _ => some (0, afterFrac)
      match expPart with
      | none => none
      | some (ex, afterExp) =>
        let mag : ℚ := ((ip : ℚ) + fp) * (10 : ℚ) ^ ex
        some (if signed.1 then -mag else mag, afterExp)

mutual

/-- One JSON value, leading whitespace allowed. -/
def parseValue : Nat → List Char → Option (Json × List Char)
  | 0, _ => none
  | Nat.succ fuel, cs =>
    match skipWs cs with
    | 'n' :: 'u' :: 'l' :: 'l' :: rest => some (.null, rest)
    | 't' :: 'r' :: 'u' :: 'e' :: rest => some (.bool true, rest)
    | 'f' :: 'a' :: 'l' :: 's' :: 'e' :: rest => some (.bool false, rest)
    | '"' :: rest => (parseStringBody rest).map (fun p => (.str p.1, p.2))
    | '[' :: rest => parseItems fuel rest
    | '\x7b' :: rest => parseMembers fuel rest
    | cs2 => (parseNumber cs2).map (fun p => (.num p.1, p.2))

/-- Array items after the opening bracket. -/
def parseItems : Nat → List Char → Option (Json × List Char)
  | 0, _ => none
  | Nat.succ fuel, cs =>
    match skipWs cs with
    | ']' :: rest => some (.arr [], rest)
    | cs2 => parseItemsRest fuel [] cs2

/-- Non-empty tail of an array: value, then `,` or `]`. -/
def parseItemsRest : Nat → List Json → List Char → Option (Json × List Char)
  | 0, _, _ => none
  | Nat.succ fuel, acc, cs =>
    match parseValue fuel cs with
    | none => none
    | some (v, rest) =>
      match skipWs rest with
      | ',' :: rest2 => parseItemsRest fuel (v :: acc) rest2
      | ']' :: rest2 => some (.arr (v :: acc).reverse, rest2)
      | _ => none

/-- Object members after the opening brace. -/
def parseMembers : Nat → List Char → Option (Json × List Char)
  | 0, _ => none
  | Nat.succ fuel, cs =>
    match skipWs cs with
    | '\x7d' :: rest => some (.obj [], rest)
    | cs2 => parseMembersRest fuel [] cs2

/-- Non-empty tail of an object: `"key" : value`, then `,` or the brace. -/
def parseMembersRest : Nat → List (String × Json) → List Char → Option (Json × List Char)
  | 0, _, _ => none
  | Nat.succ fuel, acc, cs =>
    match skipWs cs with
    | '"' :: rest =>
      match parseStringBody rest with
      | none => none
      | some (key, rest2) =>
        match skipWs rest2 with
        | ':' :: rest3 =>
          match parseValue fuel rest3 with
          | none => none
          | some (v, rest4) =>
            match skipWs rest4 with
            | ',' :: rest5 => parseMembersRest fuel ((key, v) :: acc) rest5
            | '\x7d' :: rest5 => some (.obj ((key, v) :: acc).reverse, rest5)
            | _ => none
        | _ => none
    | _ => none

end

/-- `JSON.parse`: one value, only whitespace around it, else failure
(`none` models the thrown `SyntaxError`). -/
def jsParse (s : String) : Option Json :=
  match parseValue (2 * s.length + 8) s.data with
  | some (j, rest) => if skipWs rest = [] then some j else none
  | none => none

/-! ### The two regex probes of `extractFindingsFromText`

`huntExecutor.ts` looks for JSON with
`text.match(/```json\s*([\s\S]*?)\s*```/) || text.match(/\[[\s\S]*"id"[\s\S]*\]/)`
and then uses `jsonMatch[1] || jsonMatch[0]`. The two matchers are
modelled below by their (derivable) deterministic readings:
  * the fenced probe matches at the first occurrence of `` ```json ``
    and, lazily, up to the first following `` ``` ``; the capture group
    is the enclosed text with surrounding whitespace stripped (the two
    greedy `\s*` runs), the whole match is the enclosed text with its
    fences;
  * the bare-array probe (greedy) matches from the first `[` to the last
    `]` of the text, provided some `"id"` occurs after that `[` with a
    `]` after it.  It has no capture group, so the whole match is used. -/

/-- The whitespace class of the regex `\s` (the characters relevant
here; JS additionally includes some rare unicode spaces). -/
def isRegexWs (c : Char) : Bool :=
  c = ' ' ∨ c = '\t' ∨ c = '\n' ∨ c = '\r' ∨ c = '\x0c' ∨ c = '\x0b'

/-- Strip regex whitespace from both ends (the two greedy `\s*` runs
around the lazy capture group). -/
def trimWs (cs : List Char) : List Char :=
  ((cs.dropWhile isRegexWs).reverse.dropWhile isRegexWs).reverse

/-- Split a character list at the first occurrence of `pat`, returning
the part before it and the part after it. -/
def splitAtSub (pat : List Char) : List Char → Option (List Char × List Char)
  | [] => if pat.isEmpty then some ([], []) else none
  | c :: cs =>
    if pat.isPrefixOf (c :: cs) then some ([], (c :: cs).drop pat.length)
    else (splitAtSub pat cs).map (fun p => (c :: p.1, p.2))

/-- `text.match(/```json\s*([\s\S]*?)\s*```/)`: `none` when the regex
does not match, otherwise `(capture group 1, whole match)`. -/
def fencedJsonMatch (text : String) : Option (String × String) :=
  match splitAtSub "```json".data text.data with
  | none => none
  | some (_, afterOpen) =>
    match splitAtSub "```".data afterOpen with
    | none => none
    | some (inner, _) =>
      some (String.mk (trimWs inner), "```json" ++ String.mk inner ++ "```")

/-- `text.match(/\[[\s\S]*"id"[\s\S]*\]/)`: the whole match, if any. -/
def bareArrayMatch (text : String) : Option String :=
  let cs := text.data
  match cs.findIdx? (· = '[') with
  | none => none
  | some i =>
    match splitAtSub "\"id\"".data (cs.drop (i + 1)) with
    | none => none
    | some (_, post) =>
      if post.contains ']' then
        match cs.reverse.findIdx? (· = ']') with
        | some rIdx =>
          let j := cs.length - 1 - rIdx
          some (String.mk ((cs.drop i).take (j + 1 - i)))
        | none => none
      else none

/-- The text handed to `JSON.parse` by `extractFindingsFromText`:
first regex's `[1] || [0]`, else second regex's whole match, else none
(`const jsonMatch = text.match(r1) || text.match(r2)` followed by
`jsonMatch[1] || jsonMatch[0]`). -/
def jsonMatchOf (text : String) : Option String :=
  match fencedJsonMatch text with
  | some (cap, whole) => some (if cap = "" then whole else cap)
  | none => bareArrayMatch text

/-- A hunt definition (`huntLoader.ts`). -/
structure Hunt where
  id : String
  filename : String
  content : String
  deriving BEq, Repr

/-- `extractFindingsFromText` (`huntExecutor.ts`): regex probe, then
`JSON.parse` and the normalizing `parsed.map`, all inside one
try/catch; no match, a parse error, a non-array value, or a TypeError
thrown inside the map (a `null` candidate) all yield the empty list. -/
def extractFindingsFromText (text : String) (hunt : Hunt)
    (executedQueries : List String) : List Finding :=
  match jsonMatchOf text with
  | none => []
  | some jsonText =>
    match jsParse jsonText with
    | none => []
    | some (.arr items) =>
      match normalizeAll hunt.id executedQueries 0 items with
      | none => []
      | some fs => fs
    | some _ => []

/-! ### Tool resolution (`routes.ts` `pickTool`, `huntExecutor.ts` `find`) -/

/-- `s.includes(pat)` in JS. -/
def strIncludes (s pat : String) : Bool :=
  (splitAtSub pat.data s.data).isSome

/-- A discovered MCP tool descriptor. -/
structure McpTool where
  name : String
  description : Option String := none
  deriving BEq, Repr

/-- `pickTool` (`routes.ts`): first preference-list name that occurs in
the discovered names, else `null`. -/
def pickTool (toolNames : List String) (preference : List String) : Option String :=
  preference.find? (fun name => toolNames.contains name)

/-- The info-tool preference list of `routes.ts`. -/
def infoToolPreference : List String :=
  ["get_splunk_info", "splunk_get_info", "get_info", "server_info", "info"]

/-- The query-tool preference list of `routes.ts`. -/
def queryToolPreference : List String :=
  ["splunk_run_query", "run_splunk_query", "run_query", "search", "splunk_search"]

/-- The hunt executor's query-tool resolution (`huntExecutor.ts`):
`mcpTools.find(t => t.name.includes("query") || t.name.includes("search"))`
— first *discovered* tool whose name contains either substring; no
preference list is consulted. -/
def findQueryTool (mcpTools : List McpTool) : Option McpTool :=
  mcpTools.find? (fun t => strIncludes t.name "query" || strIncludes t.name "search")

/-! ### Argument-shape fallback

Both call sites try `{query}`, `{spl}`, `{search}` in order against the
same tool; a tool invocation is modelled as an oracle from the argument
object to a result (`Except.error` models the call throwing). A
successful `callTool` always resolves to a schema-validated result
object, hence never to a falsy value, so the hunt executor's
`if (!result)` test is equivalent to "no strategy succeeded". -/

/-- The three argument shapes (`queryArgStrategies` in `routes.ts`, the
inline `strategies` array in `huntExecutor.ts`). -/
def queryArgStrategies (spl : String) : List (List (String × String)) :=
  [[("query", spl)], [("spl", spl)], [("search", spl)]]

/-- The fallback loop of the `POST /api/splunk/query` handler: first
success wins, otherwise the last error is kept (`lastError`). -/
def routesQueryLoop (call : List (String × String) → Except String Json) :
    List (List (String × String)) → Option String → Except (Option String) Json
  | [], lastError => .error lastError
  | args :: rest, lastError =>
    match call args with
    | .ok r => .ok r
    | .error e => routesQueryLoop call rest (some e)

/-- The handler's response after the loop (`routes.ts` lines 274–298):
success → `{ok:true, toolUsed, result}`; all shapes failed → HTTP 502
with `Tool <name> failed: <last error message>`. -/
structure QueryResponse where
  status : Nat
  ok : Bool
  toolUsed : Option String
  result : Option Json
  errorMsg : Option String
  deriving Repr

def splunkQueryDispatch (queryTool : String)
    (call : List (String × String) → Except String Json) (spl : String) : QueryResponse :=
  match routesQueryLoop call (queryArgStrategies spl) none with
  | .ok r => ⟨200, true, some queryTool, some r, none⟩
  | .error lastError =>
    ⟨502, false, some queryTool, none,
     some ("Tool " ++ queryTool ++ " failed: " ++ lastError.getD "Unknown error")⟩

/-- The hunt executor's fallback loop (`huntExecutor.ts` lines 268–289):
first success wins; if no strategy produced a result,
`throw lastError || new Error("All query strategies failed")`. -/
def huntQueryLoop (call : List (String × String) → Except String Json) :
    List (List (String × String)) → Option String → Except String Json
  | [], lastError => .error (lastError.getD "All query strategies failed")
  | args :: rest, lastError =>
    match call args with
    | .ok r => .ok r
    | .error e => huntQueryLoop call rest (some e)

def huntQueryOutcome (call : List (String × String) → Except String Json)
    (spl : String) : Except String Json :=
  huntQueryLoop call (queryArgStrategies spl) none

/-! ### The MCP client's timeout race (`packages/mcp`)

An asynchronous external operation is modelled by its completion
behaviour: it either settles at some time (in ms) with a result or a
rejection, or it never settles. `withTimeout` races the operation
against `setTimeout(timeoutMs)`; a falsy `timeoutMs` (absent or `0`)
skips the race, exactly as `if (!timeoutMs) return promise`. The error
created by `withTimeout` itself (`new Error(message)`) is tracked as
`McpError.timeout`, distinct by construction from `McpError.opFailure`,
which tags a rejection coming from the underlying operation. A
same-tick tie is resolved in favour of the timer. -/

inductive AsyncOutcome (ε α : Type) where
  | completes (t : Nat) (r : Except ε α)
  | never

/-- Error kinds observable by callers of the MCP client wrapper. -/
inductive McpError where
  | timeout (msg : String)
  | opFailure (msg : String)
  deriving DecidableEq, Repr

/-- An un-raced operation: rejections keep their operation provenance. -/
def liftOp {α : Type} : AsyncOutcome String α → AsyncOutcome McpError α
  | .completes t r => .completes t (r.mapError McpError.opFailure)
  | .never => .never

/-- `withTimeout(promise, timeoutMs, message)` (`packages/mcp`). -/
def withTimeout {α : Type} (timeoutMs : Option Nat) (message : String)
    (op : AsyncOutcome String α) : AsyncOutcome McpError α :=
  match timeoutMs with
  | none => liftOp op
  | some tmo =>
    if tmo = 0 then liftOp op
    else
      match op with
      | .completes t r =>
        if t < tmo then .completes t (r.mapError McpError.opFailure)
        else .completes tmo (.error (.timeout message))
      | .never => .completes tmo (.error (.timeout message))

/-- `createMcpClient`: the connect handshake, raced with its timeout. -/
def mcpConnect {α : Type} (timeoutMs : Option Nat)
    (underlying : AsyncOutcome String α) : AsyncOutcome McpError α :=
  withTimeout timeoutMs "MCP connect timed out" underlying

/-- `client.listTools()`: the `tools/list` request, raced. -/
def mcpListTools (timeoutMs : Option Nat)
    (underlying : AsyncOutcome String (List McpTool)) : AsyncOutcome McpError (List McpTool) :=
  withTimeout timeoutMs "MCP tools/list timed out" underlying

/-- `client.callTool(name, args)`: the `tools/call` request, raced. -/
def mcpCallTool (timeoutMs : Option Nat)
    (underlying : AsyncOutcome String Json) : AsyncOutcome McpError Json :=
  withTimeout timeoutMs "MCP tools/call timed out" underlying

/-! ### Close discipline at the three client-owning call sites

A call site that opened an MCP client is modelled by the outcome of the
open step, the body run with the opened client, and the outcome of
`close()`. The returned flag records whether `close` was invoked (the
sources guard the `finally` with `if (client)`). JS `finally`
semantics: a value thrown inside `finally` replaces whatever the `try`
block produced. -/

/-- `finally { if (client) { try { await client.close() } catch {} } }`
— the `/api/splunk/connect`, `/api/splunk/query` handlers and the
coverage stage (`routes.ts`). -/
def finallySwallowClose {α : Type} (primary : Except String α)
    (closeResult : Except String Unit) : Except String α :=
  match closeResult with
  | .ok _ => primary
  | .error _ => primary

/-- `finally { if (mcpClient) { await mcpClient.close() } }` — the hunt
executor (`huntExecutor.ts`): no catch around `close`. -/
def finallyBareClose {α : Type} (primary : Except String α)
    (closeResult : Except String Unit) : Except String α :=
  match closeResult with
  | .ok _ => primary
  | .error e => .error e

/-- A handler-style scope (`routes.ts`): result and whether close ran. -/
def handlerClientScope {β α : Type} (openR : Except String β)
    (body : β → Except String α) (closeR : β → Except String Unit) :
    Except String α × Bool :=
  match openR with
  | .error e => (.error e, false)
  | .ok c => (finallySwallowClose (body c) (closeR c), true)

/-- The hunt-executor scope (`huntExecutor.ts`). -/
def huntClientScope {β α : Type} (openR : Except String β)
    (body : β → Except String α) (closeR : β → Except String Unit) :
    Except String α × Bool :=
  match openR with
  | .error e => (.error e, false)
  | .ok c => (finallyBareClose (body c) (closeR c), true)

/-! ### Results statistics and session querying (`routes.ts`) -/

/-- The `stats` object of `GET /api/audit/:id/results`. -/
structure AuditStats where
  riskLevel : String
  totalFindings : Nat
  avgConfidence : Int
  evidenceCount : Nat
  deriving DecidableEq, Repr

/-- The inline statistics block of the results handler (`routes.ts`
lines 441–453): summed evidence counts, `Math.round` of the mean
confidence (0 for no findings), and the severity-driven risk level. -/
def computeStats (findings : List Finding) : AuditStats :=
  let evidenceCount := (findings.map (fun f => f.evidenceCount)).sum
  let avgConfidence : Int :=
    if findings.length > 0 then
      round ((findings.map (fun f => f.confidence)).sum / (findings.length : ℚ))
    else 0
  let criticalCount := (findings.filter (fun f => f.severity.eqStr "critical")).length
  let highCount := (findings.filter (fun f => f.severity.eqStr "high")).length
  let riskLevel :=
    if criticalCount > 0 then "critical"
    else if highCount ≥ 2 then "high"
    else if highCount ≥ 1 then "medium"
    else "low"
  ⟨riskLevel, findings.length, avgConfidence, evidenceCount⟩

/-- The summary string of the results handler (`routes.ts` lines
456–460). -/
def summarize (findings : List Finding) : String :=
  let criticalCount := (findings.filter (fun f => f.severity.eqStr "critical")).length
  let highCount := (findings.filter (fun f => f.severity.eqStr "high")).length
  if findings.length > 0 then
    "Automated threat hunting identified " ++ toString findings.length ++ " finding"
      ++ (if findings.length > 1 then "s" else "") ++ " requiring attention. "
      ++ (if highCount > 0 ∨ criticalCount > 0 then
            toString (highCount + criticalCount) ++ " high-priority issue"
              ++ (if highCount + criticalCount > 1 then "s" else "") ++ " detected. "
          else "")
      ++ "Review detailed findings and recommendations below."
  else
    "No significant security threats detected during automated threat hunting. Continue monitoring and periodic assessments."

/-- The audit pipeline stages (`types.ts`). -/
inductive AuditStage where
  | coverage
  | selecting
  | running
  | packaging
  | report
  | complete
  | failed
  deriving DecidableEq, Repr

/-- The run configuration stored in a session (the validated
`POST /api/audit/start` body). -/
structure RunConfig where
  command : Option String
  args : Option (List String)
  env : Option (List (String × String))
  timeRange : String
  scope : Option String
  deriving BEq, Repr

/-- An audit session (`routes.ts` `AuditSession`); `hunts` models the
`(session as any).hunts` stash written by the selecting stage (absent ≡
empty), `logs` is elided (see the header). -/
structure AuditSession where
  id : String
  stage : AuditStage
  progress : Nat
  startedAt : Nat
  config : RunConfig
  findings : List Finding
  hunts : List Hunt
  deriving Repr

/-- Response of `GET /api/audit/:id/status` (logs elided). -/
structure StatusResponse where
  status : Nat
  ok : Bool
  auditId : String
  stage : AuditStage
  progress : Nat
  errorMsg : Option String
  deriving Repr

/-- The status handler (`routes.ts` lines 376–400): 404 for an unknown
session, otherwise the live stage/progress. -/
def getAuditStatus (id : String) (sess : Option AuditSession) : StatusResponse :=
  match sess with
  | none => ⟨404, false, id, .coverage, 0, some "Audit session not found"⟩
  | some s => ⟨200, true, id, s.stage, s.progress, none⟩

/-- Response of `GET /api/audit/:id/results`. -/
structure ResultsResponse where
  status : Nat
  ok : Bool
  auditId : String
  findings : List Finding
  stats : AuditStats
  summary : String
  errorMsg : Option String
  deriving Repr

/-- The results handler (`routes.ts` lines 402–475): 404 for an unknown
session, 400 `"Audit still in progress"` unless the stage is
`complete`, otherwise findings, stats and summary. -/
def getAuditResults (id : String) (sess : Option AuditSession) : ResultsResponse :=
  match sess with
  | none => ⟨404, false, id, [], ⟨"low", 0, 0, 0⟩, "", some "Audit session not found"⟩
  | some s =>
    if s.stage ≠ AuditStage.complete then
      ⟨400, false, id, [], ⟨"low", 0, 0, 0⟩, "", some "Audit still in progress"⟩
    else
      ⟨200, true, id, s.findings, computeStats s.findings, summarize s.findings, none⟩

/-! ### `POST /api/audit/start` -/

/-- `z.string().min(1)`. -/
def zStringMin1 : Json → Option String
  | .str s => if s.length ≥ 1 then some s else none
  | _ => none

/-- `z.string()`. -/
def zString : Json → Option String
  | .str s => some s
  | _ => none

/-- `z.array(z.string())`. -/
def zStringArray : Json → Option (List String)
  | .arr xs => xs.mapM zString
  | _ => none

/-- `z.record(z.string())`. -/
def zStringRecord : Json → Option (List (String × String))
  | .obj kvs => kvs.mapM (fun kv => (zString kv.2).map (fun s => (kv.1, s)))
  | _ => none

/-- An `.optional()` field: missing is fine, present must validate. -/
def zOptional {α : Type} (body : Json) (key : String) (f : Json → Option α) :
    Option (Option α) :=
  match body.lookup key with
  | none => some none
  | some v => (f v).map some

/-- The zod schema `auditStartSchema` (`routes.ts` lines 325–331):
`command`/`args`/`env`/`scope` optional, `timeRange` a non-empty
string; unknown keys are stripped, a non-object body is rejected. -/
def parseAuditStartBody (body : Json) : Option RunConfig :=
  match body with
  | .obj _ =>
    match zOptional body "command" zStringMin1, zOptional body "args" zStringArray,
        zOptional body "env" zStringRecord, body.lookup "timeRange",
        zOptional body "scope" zString with
    | some cmd, some args, some env, some (.str tr), some scope =>
      if tr.length ≥ 1 then some ⟨cmd, args, env, tr, scope⟩ else none
    | _, _, _, _, _ => none
  | _ => none

/-- Response of `POST /api/audit/start`. -/
structure StartResponse where
  status : Nat
  ok : Bool
  auditId : String
  errorMsg : Option String
  deriving Repr

/-- The start handler (`routes.ts` lines 333–374): schema validation,
then unconditionally register a fresh `coverage`/progress-0 session and
answer `ok:true`; no MCP command or reachability check happens here
(`simulateAuditProgress` is fired in the background). `auditId` and
`now` stand for the generated id and `Date.now()`. -/
def auditStartHandler (auditId : String) (now : Nat) (body : Json) :
    StartResponse × Option AuditSession :=
  match parseAuditStartBody body with
  | none => (⟨400, false, "", some "Invalid request body"⟩, none)
  | some cfg =>
    (⟨200, true, auditId, none⟩,
     some { id := auditId, stage := .coverage, progress := 0, startedAt := now,
            config := cfg, findings := [], hunts := [] })

/-! ### The background stage machine (`simulateAuditProgress`)

`simulateAuditProgress` drives one session through the `stages` table
with chained `setTimeout` callbacks; all mutations of a session happen
inside `processNextStage` invocations, so the observable session states
are exactly the states between invocations. One invocation is modelled
as one step. The outcomes of the external work done inside a step are
supplied by a `StepEnv`: whether every awaited coverage call succeeded
(connect, `listTools`, the optional info/index tool calls — one failing
await aborts the stage), the hunt-catalog load result, and the
per-hunt outcome of `executeHunt` (positionally; a missing entry reads
as a hunt failure). After a coverage failure the callback returns
without rescheduling, and after the last stage nothing is rescheduled;
in both cases the step function is the identity, matching the frozen
observable state. -/

/-- One row of the `stages` array (`routes.ts` line 480): stage,
scheduling delay in ms, progress checkpoint. -/
structure StageInfo where
  stage : AuditStage
  duration : Nat
  progress : Nat
  deriving BEq, Repr

/-- The `stages` array of `simulateAuditProgress`. -/
def stages : List StageInfo :=
  [⟨.coverage, 2000, 15⟩, ⟨.selecting, 3000, 30⟩, ⟨.running, 0, 70⟩,
   ⟨.packaging, 2000, 85⟩, ⟨.report, 3000, 95⟩, ⟨.complete, 1000, 100⟩]

/-- Outcomes of the external work performed inside one step. -/
structure StepEnv where
  coverageOk : Bool
  loadHuntsResult : Except String (List Hunt)
  huntResults : List (Except String (List Finding))

/-- The session together with the closure variable `currentStageIndex`. -/
structure SimState where
  session : AuditSession
  currentStageIndex : Nat
  deriving Repr

/-- The findings gained by the running stage: hunts are executed in
order, a failed hunt is caught and contributes nothing (`routes.ts`
lines 611–629). -/
def runningGained : List Hunt → List (Except String (List Finding)) → List Finding
  | _ :: hs, .ok fs :: rs => fs ++ runningGained hs rs
  | _ :: hs, .error _ :: rs => runningGained hs rs
  | _ :: hs, [] => runningGained hs []
  | [], _ => []

/-- One invocation of `processNextStage` (`routes.ts` lines 491–652).
Entering a stage sets the session's stage and progress checkpoint, then
runs the stage's work; a coverage failure (only possible outside mock
mode) sets `failed`, resets progress to 0 and stops the pipeline; every
other stage advances `currentStageIndex` and reschedules. -/
def processNextStage (mockMode : Bool) (env : StepEnv) (st : SimState) : SimState :=
  if st.session.stage = AuditStage.failed ∨ stages.length ≤ st.currentStageIndex then st
  else
    match stages[st.currentStageIndex]? with
    | none => st
    | some info =>
      let s0 := { st.session with stage := info.stage, progress := info.progress }
      match info.stage with
      | .coverage =>
        if mockMode ∨ env.coverageOk then ⟨s0, st.currentStageIndex + 1⟩
        else ⟨{ s0 with stage := .failed, progress := 0 }, st.currentStageIndex⟩
      | .selecting =>
        match env.loadHuntsResult with
        | .ok hs => ⟨{ s0 with hunts := hs }, st.currentStageIndex + 1⟩
        | .error _ => ⟨s0, st.currentStageIndex + 1⟩
      | .running =>
        ⟨{ s0 with findings := s0.findings ++ runningGained s0.hunts env.huntResults },
         st.currentStageIndex + 1⟩
      | _ => ⟨s0, st.currentStageIndex + 1⟩

/-- Run a sequence of steps. -/
def runAudit (mockMode : Bool) (envs : List StepEnv) (st : SimState) : SimState :=
  envs.foldl (fun s e => processNextStage mockMode e s) st

/-- The observable state after `n` steps. -/
def auditStateAt (mockMode : Bool) (envs : List StepEnv) (st : SimState) (n : Nat) : SimState :=
  runAudit mockMode (envs.take n) st

/-- The initial `SimState` for a freshly registered session. -/
def initSim (s : AuditSession) : SimState := ⟨s, 0⟩

/-- Position of a stage in the fixed pipeline order (`failed` is
outside the order and gets the sentinel 6). -/
def stageRank : AuditStage → Nat
  | .coverage => 0
  | .selecting => 1
  | .running => 2
  | .packaging => 3
  | .report => 4
  | .complete => 5
  | .failed => 6

/-- The stage shown after `i` completed steps of a non-failed run. -/
def stageOfIdx : Nat → AuditStage
  | 0 => .coverage
  | 1 => .coverage
  | 2 => .selecting
  | 3 => .running
  | 4 => .packaging
  | 5 => .report
  | _ => .complete

/-- The progress shown after `i` completed steps of a non-failed run. -/
def progressOfIdx : Nat → Nat
  | 0 => 0
  | 1 => 15
  | 2 => 30
  | 3 => 70
  | 4 => 85
  | 5 => 95
  | _ => 100

/-- The state-machine invariant: a failed session froze at progress 0
with the pipeline stopped at index 0 (failure only happens inside the
coverage step), and a non-failed session's stage and progress are the
checkpoints determined by `currentStageIndex ≤ 6`. -/
def SimInv (st : SimState) : Prop :=
  (st.session.stage = .failed ∧ st.session.progress = 0 ∧ st.currentStageIndex = 0) ∨
  (st.session.stage ≠ .failed ∧ st.currentStageIndex ≤ 6 ∧
   st.session.stage = stageOfIdx st.currentStageIndex ∧
   st.session.progress = progressOfIdx st.currentStageIndex)

/-- One observable stage transition: unchanged, a move to the next
pipeline stage, or a first entry into `failed`. -/
def stageForward (a b : AuditStage) : Prop :=
  a = b ∨
  (a ≠ .failed ∧ b = .failed) ∨
  (a ≠ .failed ∧ b ≠ .failed ∧ stageRank b = stageRank a + 1)

/-- The query-tool resolution step of the `POST /api/splunk/query`
handler (`routes.ts` lines 262–272): a `null` from `pickTool` yields
the HTTP 400 "No query tool found" response instead of any other
discovered tool being used. -/
def splunkQueryResolve (toolNames : List String)
    (call : List (String × String) → Except String Json) (spl : String) : QueryResponse :=
  match pickTool toolNames queryToolPreference with
  | none => ⟨400, false, none, none, some "No query tool found on MCP server."⟩
  | some queryTool => splunkQueryDispatch queryTool call spl

/-- The hunt executor's resolution outcome (`huntExecutor.ts` lines
198–205): `throw new Error("No query tool found in Splunk MCP server")`
when no discovered tool name contains "query" or "search". -/
def huntResolveQueryTool (mcpTools : List McpTool) : Except String McpTool :=
  match findQueryTool mcpTools with
  | none => .error "No query tool found in Splunk MCP server"
  | some t => .ok t

/-! ### State-machine lemmas -/

lemma processNextStage_of_failed (m : Bool) (e : StepEnv) (st : SimState)
    (h : st.session.stage = .failed) : processNextStage m e st = st := by
  unfold processNextStage
  rw [if_pos (Or.inl h)]

lemma processNextStage_spec (m : Bool) (e : StepEnv) (st : SimState) (h : SimInv st) :
    SimInv (processNextStage m e st) ∧
    st.currentStageIndex ≤ (processNextStage m e st).currentStageIndex ∧
    stageForward st.session.stage (processNextStage m e st).session.stage := by
  rcases st with ⟨sess, idx⟩
  rcases h with ⟨hf, hp, hi⟩ | ⟨hnf, hle, hs, hp⟩
  · simp only at hf hp hi
    rw [processNextStage_of_failed m e ⟨sess, idx⟩ hf]
    exact ⟨Or.inl ⟨hf, hp, hi⟩, le_refl _, Or.inl rfl⟩
  · simp only at hnf hle hs hp
    by_cases hidx : 6 ≤ idx
    · have hguard : stages.length ≤ (SimState.mk sess idx).currentStageIndex := by
        simp [stages]; omega
      unfold processNextStage
      rw [if_pos (Or.inr hguard)]
      exact ⟨Or.inr ⟨hnf, hle, hs, hp⟩, le_refl _, Or.inl rfl⟩
    · push_neg at hidx
      interval_cases idx
      · by_cases hc : m ∨ e.coverageOk
        · simp [processNextStage, stages, hs, stageOfIdx, hc, SimInv, stageForward,
            progressOfIdx]
        · simp [processNextStage, stages, hs, stageOfIdx, hc, SimInv, stageForward,
            progressOfIdx]
      · rcases hlh : e.loadHuntsResult with hs2 | hs2 <;>
          simp [processNextStage, stages, hs, stageOfIdx, hlh, SimInv, stageForward,
            progressOfIdx, stageRank]
      · simp [processNextStage, stages, hs, stageOfIdx, SimInv, stageForward,
          progressOfIdx, stageRank]
      · simp [processNextStage, stages, hs, stageOfIdx, SimInv, stageForward,
          progressOfIdx, stageRank]
      · simp [processNextStage, stages, hs, stageOfIdx, SimInv, stageForward,
          progressOfIdx, stageRank]
      · simp [processNextStage, stages, hs, stageOfIdx, SimInv, stageForward,
          progressOfIdx, stageRank]

lemma auditStateAt_zero (m : Bool) (envs : List StepEnv) (st : SimState) :
    auditStateAt m envs st 0 = st := by
  simp [auditStateAt, runAudit]

lemma auditStateAt_succ (m : Bool) (envs : List StepEnv) (st : SimState) (n : Nat) :
    auditStateAt m envs st (n + 1) =
      match envs[n]? with
      | some e => processNextStage m e (auditStateAt m envs st n)
      | none => auditStateAt m envs st n := by
  simp only [auditStateAt, runAudit, List.take_succ]
  cases h : envs[n]? <;> simp [h, List.foldl_append]

lemma simInv_stateAt (m : Bool) (envs : List StepEnv) (st : SimState)
    (h : SimInv st) (n : Nat) : SimInv (auditStateAt m envs st n) := by
  induction n with
  | zero => simpa [auditStateAt_zero] using h
  | succ k ih =>
    rw [auditStateAt_succ]
    cases he : envs[k]? with
    | none => exact ih
    | some e => exact (processNextStage_spec m e _ ih).1

lemma stateAt_step_forward (m : Bool) (envs : List StepEnv) (st : SimState)
    (h : SimInv st) (n : Nat) :
    (auditStateAt m envs st n).currentStageIndex ≤
        (auditStateAt m envs st (n + 1)).currentStageIndex ∧
    stageForward (auditStateAt m envs st n).session.stage
        (auditStateAt m envs st (n + 1)).session.stage := by
  rw [auditStateAt_succ]
  cases he : envs[n]? with
  | none => exact ⟨le_refl _, Or.inl rfl⟩
  | some e =>
    have hinv := simInv_stateAt m envs st h n
    exact ⟨(processNextStage_spec m e _ hinv).2.1, (processNextStage_spec m e _ hinv).2.2⟩

lemma stateAt_frozen_of_failed (m : Bool) (envs : List StepEnv) (st : SimState)
    (n : Nat) (h : (auditStateAt m envs st n).session.stage = .failed) :
    ∀ k, n ≤ k → auditStateAt m envs st k = auditStateAt m envs st n := by
  intro k hk
  induction k with
  | zero =>
    have : n = 0 := Nat.le_zero.mp hk
    rw [this]
  | succ j ih =>
    rcases Nat.lt_or_ge n (j + 1) with hlt | hge
    · have hj : n ≤ j := Nat.lt_succ_iff.mp hlt
      have hje := ih hj
      rw [auditStateAt_succ]
      cases he : envs[j]? with
      | none => exact hje
      | some e =>
        simp only []
        rw [hje, processNextStage_of_failed m e _ h]
    · have : n = j + 1 := le_antisymm hk hge
      rw [this]

lemma idx_mono_stateAt (m : Bool) (envs : List StepEnv) (st : SimState)
    (h : SimInv st) {n k : Nat} (hnk : n ≤ k) :
    (auditStateAt m envs st n).currentStageIndex ≤
      (auditStateAt m envs st k).currentStageIndex := by
  induction k with
  | zero =>
    have : n = 0 := Nat.le_zero.mp hnk
    rw [this]
  | succ j ih =>
    rcases Nat.lt_or_ge n (j + 1) with hlt | hge
    · exact le_trans (ih (Nat.lt_succ_iff.mp hlt)) (stateAt_step_forward m envs st h j).1
    · have : n = j + 1 := le_antisymm hnk hge
      rw [this]

lemma stage_ne_failed_before (m : Bool) (envs : List StepEnv) (st : SimState)
    {n k : Nat} (hnk : n ≤ k)
    (h : (auditStateAt m envs st k).session.stage ≠ .failed) :
    (auditStateAt m envs st n).session.stage ≠ .failed := by
  intro hfail
  exact h (by rw [stateAt_frozen_of_failed m envs st n hfail k hnk]; exact hfail)

lemma stageRank_stageOfIdx : ∀ i, i ≤ 6 → stageRank (stageOfIdx i) = i - 1 := by
  decide

lemma stageRank_inj : ∀ a b : AuditStage, a ≠ .failed → b ≠ .failed →
    stageRank a = stageRank b → a = b := by
  intro a b
  cases a <;> cases b <;> simp [stageRank]

lemma progressOfIdx_mono : ∀ i, i ≤ 6 → ∀ j, j ≤ 6 → i ≤ j →
    progressOfIdx i ≤ progressOfIdx j := by
  decide

lemma stageRank_mono_stateAt (m : Bool) (envs : List StepEnv) (st : SimState)
    (h : SimInv st) {n k : Nat} (hnk : n ≤ k)
    (hk : (auditStateAt m envs st k).session.stage ≠ .failed) :
    stageRank (auditStateAt m envs st n).session.stage ≤
      stageRank (auditStateAt m envs st k).session.stage := by
  have hn : (auditStateAt m envs st n).session.stage ≠ .failed :=
    stage_ne_failed_before m envs st hnk hk
  have hinvn := simInv_stateAt m envs st h n
  have hinvk := simInv_stateAt m envs st h k
  rcases hinvn with ⟨hf, _, _⟩ | ⟨_, hlen, hsn, _⟩
  · exact absurd hf hn
  rcases hinvk with ⟨hf, _, _⟩ | ⟨_, hlek, hsk, _⟩
  · exact absurd hf hk
  rw [hsn, hsk, stageRank_stageOfIdx _ hlen, stageRank_stageOfIdx _ hlek]
  have := idx_mono_stateAt m envs st h hnk
  omega

lemma simInv_init (s : AuditSession) (h1 : s.stage = .coverage)
    (h2 : s.progress = 0) : SimInv (initSim s) :=
  Or.inr ⟨by simp [initSim, h1], by simp [initSim], by simpa [initSim, stageOfIdx] using h1,
    by simpa [initSim, progressOfIdx] using h2⟩

lemma progressOfIdx_mem : ∀ i, i ≤ 6 →
    progressOfIdx i ∈ ([0, 15, 30, 70, 85, 95, 100] : List Nat) := by
  decide

/-- Claim C1: for every audit session, the stage only ever moves forward
along the fixed order coverage, selecting, running, packaging, report,
complete, or stops early at failed; no stage is re-entered after it is
left (if a stage is observed at two instants it was held throughout),
and once failed is entered no further stage transition occurs — failed
is absorbing and entered at most once. -/
theorem c1_stage_order (m : Bool) (envs : List StepEnv) (s : AuditSession)
    (h1 : s.stage = .coverage) (h2 : s.progress = 0) :
    (∀ n, stageForward ((auditStateAt m envs (initSim s) n).session.stage)
        ((auditStateAt m envs (initSim s) (n + 1)).session.stage)) ∧
    (∀ n j k, n ≤ j → j ≤ k →
        (auditStateAt m envs (initSim s) n).session.stage =
          (auditStateAt m envs (initSim s) k).session.stage →
        (auditStateAt m envs (initSim s) n).session.stage =
          (auditStateAt m envs (initSim s) j).session.stage) ∧
    (∀ n k, n ≤ k → (auditStateAt m envs (initSim s) n).session.stage = .failed →
        (auditStateAt m envs (initSim s) k).session.stage = .failed) := by
  have hinv := simInv_init s h1 h2
  refine ⟨fun n => (stateAt_step_forward m envs _ hinv n).2, ?_, ?_⟩
  · intro n j k hnj hjk heq
    by_cases hf : (auditStateAt m envs (initSim s) n).session.stage = .failed
    · have hfrozen := stateAt_frozen_of_failed m envs _ n hf j hnj
      rw [hfrozen]
    · have hkne : (auditStateAt m envs (initSim s) k).session.stage ≠ .failed :=
        fun hkf => hf (heq.trans hkf)
      have hjne : (auditStateAt m envs (initSim s) j).session.stage ≠ .failed :=
        stage_ne_failed_before m envs _ hjk hkne
      have r1 := stageRank_mono_stateAt m envs _ hinv hnj hjne
      have r2 := stageRank_mono_stateAt m envs _ hinv hjk hkne
      rw [← heq] at r2
      exact stageRank_inj _ _ hf hjne (le_antisymm r1 r2)
  · intro n k hnk hf
    rw [stateAt_frozen_of_failed m envs _ n hf k hnk]
    exact hf

theorem c1_stage_order_witness :
    stageForward
      ((auditStateAt false [⟨false, .ok [], []⟩]
          (initSim ⟨"a1", .coverage, 0, 0, ⟨none, none, none, "7", none⟩, [], []⟩) 0).session.stage)
      ((auditStateAt false [⟨false, .ok [], []⟩]
          (initSim ⟨"a1", .coverage, 0, 0, ⟨none, none, none, "7", none⟩, [], []⟩) 1).session.stage) ∧
    (auditStateAt false [⟨false, .ok [], []⟩]
        (initSim ⟨"a1", .coverage, 0, 0, ⟨none, none, none, "7", none⟩, [], []⟩) 3).session.stage =
      .failed := by
  have h := c1_stage_order false [⟨false, .ok [], []⟩]
    ⟨"a1", .coverage, 0, 0, ⟨none, none, none, "7", none⟩, [], []⟩ rfl rfl
  exact ⟨h.1 0, h.2.2 1 3 (by omega) (by decide)⟩

/-- Claim C2: for every audit session that has not transitioned to
failed, progress observed later is greater than or equal to progress
observed earlier, and every observed value is one of the checkpoints 0,
15, 30, 70, 85, 95, 100; a transition to failed resets progress to 0
and the session state never changes afterwards. -/
theorem c2_progress_behavior (m : Bool) (envs : List StepEnv) (s : AuditSession)
    (h1 : s.stage = .coverage) (h2 : s.progress = 0) :
    (∀ n k, n ≤ k →
        (auditStateAt m envs (initSim s) k).session.stage ≠ .failed →
        (auditStateAt m envs (initSim s) n).session.progress ≤
          (auditStateAt m envs (initSim s) k).session.progress) ∧
    (∀ n, (auditStateAt m envs (initSim s) n).session.stage = .failed →
        (auditStateAt m envs (initSim s) n).session.progress = 0) ∧
    (∀ n k, n ≤ k → (auditStateAt m envs (initSim s) n).session.stage = .failed →
        auditStateAt m envs (initSim s) k = auditStateAt m envs (initSim s) n) ∧
    (∀ n, (auditStateAt m envs (initSim s) n).session.progress ∈
        ([0, 15, 30, 70, 85, 95, 100] : List Nat)) := by
  have hinv := simInv_init s h1 h2
  refine ⟨?_, ?_, ?_, ?_⟩
  · intro n k hnk hkne
    have hnne : (auditStateAt m envs (initSim s) n).session.stage ≠ .failed :=
      stage_ne_failed_before m envs _ hnk hkne
    have hinvn := simInv_stateAt m envs _ hinv n
    have hinvk := simInv_stateAt m envs _ hinv k
    rcases hinvn with ⟨hf, _, _⟩ | ⟨_, hlen, _, hpn⟩
    · exact absurd hf hnne
    rcases hinvk with ⟨hf, _, _⟩ | ⟨_, hlek, _, hpk⟩
    · exact absurd hf hkne
    rw [hpn, hpk]
    exact progressOfIdx_mono _ hlen _ hlek (idx_mono_stateAt m envs _ hinv hnk)
  · intro n hf
    rcases simInv_stateAt m envs _ hinv n with ⟨_, hp, _⟩ | ⟨hne, _, _, _⟩
    · exact hp
    · exact absurd hf hne
  · intro n k hnk hf
    exact stateAt_frozen_of_failed m envs _ n hf k hnk
  · intro n
    rcases simInv_stateAt m envs _ hinv n with ⟨_, hp, _⟩ | ⟨_, hle, _, hp⟩
    · rw [hp]; decide
    · rw [hp]; exact progressOfIdx_mem _ hle

theorem c2_progress_behavior_witness :
    (auditStateAt false [⟨true, .ok [], []⟩, ⟨true, .ok [], []⟩]
        (initSim ⟨"a2", .coverage, 0, 0, ⟨none, none, none, "7", none⟩, [], []⟩) 1).session.progress ≤
      (auditStateAt false [⟨true, .ok [], []⟩, ⟨true, .ok [], []⟩]
          (initSim ⟨"a2", .coverage, 0, 0, ⟨none, none, none, "7", none⟩, [], []⟩) 2).session.progress ∧
    (auditStateAt false [⟨true, .ok [], []⟩, ⟨true, .ok [], []⟩]
        (initSim ⟨"a2", .coverage, 0, 0, ⟨none, none, none, "7", none⟩, [], []⟩) 2).session.progress ∈
      ([0, 15, 30, 70, 85, 95, 100] : List Nat) := by
  have h := c2_progress_behavior false [⟨true, .ok [], []⟩, ⟨true, .ok [], []⟩]
    ⟨"a2", .coverage, 0, 0, ⟨none, none, none, "7", none⟩, [], []⟩ rfl rfl
  exact ⟨h.1 1 2 (by omega) (by decide), h.2.2.2 2⟩

/-- Claim C3: the results endpoint returns 404 for an unknown session
id, the distinct 400 "Audit still in progress" error for every known
session whose stage is not complete, and the findings/stats/summary
payload exactly when the stage is complete; a session that has reached
failed never transitions to complete, so its results are never
available. -/
theorem c3_results_endpoint (id : String) :
    ((getAuditResults id none).status = 404 ∧ (getAuditResults id none).ok = false ∧
      (getAuditResults id none).errorMsg = some "Audit session not found") ∧
    (∀ s : AuditSession, s.stage ≠ .complete →
      (getAuditResults id (some s)).status = 400 ∧ (getAuditResults id (some s)).ok = false ∧
      (getAuditResults id (some s)).errorMsg = some "Audit still in progress") ∧
    (∀ s : AuditSession, s.stage = .complete →
      getAuditResults id (some s) =
        ⟨200, true, id, s.findings, computeStats s.findings, summarize s.findings, none⟩) ∧
    (∀ (m : Bool) (envs : List StepEnv) (s : AuditSession), s.stage = .coverage →
      s.progress = 0 → ∀ n k, n ≤ k →
      (auditStateAt m envs (initSim s) n).session.stage = .failed →
      (getAuditResults id (some (auditStateAt m envs (initSim s) k).session)).status = 400) := by
  refine ⟨by simp [getAuditResults], ?_, ?_, ?_⟩
  · intro s h
    simp [getAuditResults, h]
  · intro s h
    simp [getAuditResults, h]
  · intro m envs s h1 h2 n k hnk hf
    have hk : (auditStateAt m envs (initSim s) k).session.stage = .failed := by
      rw [stateAt_frozen_of_failed m envs _ n hf k hnk]
      exact hf
    simp [getAuditResults, hk]

theorem c3_results_endpoint_witness :
    (getAuditResults "a3" none).status = 404 ∧
    (getAuditResults "a3" (some ⟨"a3", .running, 70, 0, ⟨none, none, none, "7", none⟩, [], []⟩)).status = 400 ∧
    (getAuditResults "a3" (some ⟨"a3", .complete, 100, 0, ⟨none, none, none, "7", none⟩, [], []⟩)).ok = true ∧
    (getAuditResults "a3" (some (auditStateAt false [⟨false, .ok [], []⟩]
        (initSim ⟨"a3", .coverage, 0, 0, ⟨none, none, none, "7", none⟩, [], []⟩) 4).session)).status = 400 := by
  have h := c3_results_endpoint "a3"
  refine ⟨h.1.1, (h.2.1 _ (by decide)).1, ?_, ?_⟩
  · rw [h.2.2.1 _ rfl]
  · exact h.2.2.2 false [⟨false, .ok [], []⟩] _ rfl rfl 1 4 (by omega) (by decide)

/-- Claim C5: the results statistics are computed as: evidenceCount is
the sum of the findings' evidenceCount fields, totalFindings the number
of findings, avgConfidence the integer-rounded mean confidence (0 for
no findings), and riskLevel is critical when any finding has severity
critical, else high when at least two findings have severity high, else
medium when at least one does, else low; in particular the empty list
yields riskLevel low, totalFindings 0, avgConfidence 0, evidenceCount 0. -/
theorem c5_compute_stats (findings : List Finding) :
    (computeStats findings).evidenceCount = (findings.map (fun f => f.evidenceCount)).sum ∧
    (computeStats findings).totalFindings = findings.length ∧
    (findings.length > 0 → (computeStats findings).avgConfidence =
      round ((findings.map (fun f => f.confidence)).sum / (findings.length : ℚ))) ∧
    computeStats [] = ⟨"low", 0, 0, 0⟩ ∧
    ((∃ f ∈ findings, f.severity.eqStr "critical") →
      (computeStats findings).riskLevel = "critical") ∧
    ((∀ f ∈ findings, ¬ f.severity.eqStr "critical") →
      2 ≤ (findings.filter (fun f => f.severity.eqStr "high")).length →
      (computeStats findings).riskLevel = "high") ∧
    ((∀ f ∈ findings, ¬ f.severity.eqStr "critical") →
      (findings.filter (fun f => f.severity.eqStr "high")).length = 1 →
      (computeStats findings).riskLevel = "medium") ∧
    ((∀ f ∈ findings, ¬ f.severity.eqStr "critical") →
      (findings.filter (fun f => f.severity.eqStr "high")).length = 0 →
      (computeStats findings).riskLevel = "low") := by
  refine ⟨rfl, rfl, ?_, rfl, ?_, ?_, ?_, ?_⟩
  · intro hlen
    simp [computeStats, hlen]
  · intro hex
    have hne : findings.filter (fun f => f.severity.eqStr "critical") ≠ [] := by
      rcases hex with ⟨f, hmem, hp⟩
      intro hnil
      have : f ∈ findings.filter (fun f => f.severity.eqStr "critical") :=
        List.mem_filter.mpr ⟨hmem, hp⟩
      simp [hnil] at this
    have hpos : 0 < (findings.filter (fun f => f.severity.eqStr "critical")).length :=
      List.length_pos.mpr hne
    simp [computeStats, hpos]
  · intro hnone h2
    have hnil : findings.filter (fun f => f.severity.eqStr "critical") = [] :=
      List.filter_eq_nil_iff.mpr (fun f hf => by simpa using hnone f hf)
    simp [computeStats, hnil, h2]
  · intro hnone h1
    have hnil : findings.filter (fun f => f.severity.eqStr "critical") = [] :=
      List.filter_eq_nil_iff.mpr (fun f hf => by simpa using hnone f hf)
    simp [computeStats, hnil, h1]
  · intro hnone h0
    have hnil : findings.filter (fun f => f.severity.eqStr "critical") = [] :=
      List.filter_eq_nil_iff.mpr (fun f hf => by simpa using hnone f hf)
    simp [computeStats, hnil, h0]

theorem c5_compute_stats_witness :
    (computeStats [⟨.str "F1", .str "critical", .str "t", .str "d", [], [.str "e"], 1, 90, [], .str "r"⟩,
        ⟨.str "F2", .str "low", .str "t", .str "d", [], [], 0, 50, [], .str "r"⟩]).riskLevel =
      "critical" ∧
    (computeStats [⟨.str "F1", .str "critical", .str "t", .str "d", [], [.str "e"], 1, 90, [], .str "r"⟩,
        ⟨.str "F2", .str "low", .str "t", .str "d", [], [], 0, 50, [], .str "r"⟩]).avgConfidence = 70 ∧
    computeStats [] = ⟨"low", 0, 0, 0⟩ := by
  have h := c5_compute_stats
    [⟨.str "F1", .str "critical", .str "t", .str "d", [], [.str "e"], 1, 90, [], .str "r"⟩,
     ⟨.str "F2", .str "low", .str "t", .str "d", [], [], 0, 50, [], .str "r"⟩]
  refine ⟨h.2.2.2.2.1 ⟨_, List.mem_cons_self _ _, by decide⟩, ?_, h.2.2.2.1⟩
  rw [h.2.2.1 (by decide)]
  norm_num

/-- Claim C10: every request to POST /api/audit/start whose body passes
schema validation (timeRange a non-empty string; command, args, env,
scope optional) yields ok:true with the freshly generated auditId and
registers a session with stage coverage, progress 0 and no findings;
start performs no MCP-command or tool-provider reachability check, so a
provider failure never makes start itself fail — it surfaces later as
stage failed through the status endpoint. -/
theorem c10_audit_start (id : String) (now : Nat) (body : Json) (cfg : RunConfig)
    (h : parseAuditStartBody body = some cfg) :
    (auditStartHandler id now body).1 = ⟨200, true, id, none⟩ ∧
    (auditStartHandler id now body).2 =
      some ⟨id, .coverage, 0, now, cfg, [], []⟩ ∧
    (∀ tr : String, 1 ≤ tr.length →
      parseAuditStartBody (.obj [("timeRange", .str tr)]) =
        some ⟨none, none, none, tr, none⟩) ∧
    (∀ (envs : List StepEnv) (e : StepEnv) (k : Nat), e.coverageOk = false → 1 ≤ k →
      (getAuditStatus id (some ((auditStateAt false (e :: envs)
          (initSim ⟨id, .coverage, 0, now, cfg, [], []⟩)) k).session)).stage = .failed ∧
      (getAuditStatus id (some ((auditStateAt false (e :: envs)
          (initSim ⟨id, .coverage, 0, now, cfg, [], []⟩)) k).session)).ok = true ∧
      (getAuditStatus id (some ((auditStateAt false (e :: envs)
          (initSim ⟨id, .coverage, 0, now, cfg, [], []⟩)) k).session)).status = 200) := by
  refine ⟨by simp [auditStartHandler, h], by simp [auditStartHandler, h], ?_, ?_⟩
  · intro tr htr
    simp [parseAuditStartBody, zOptional, Json.lookup, htr]
  · intro envs e k he hk
    have h1 : (auditStateAt false (e :: envs)
        (initSim ⟨id, .coverage, 0, now, cfg, [], []⟩) 1).session.stage = .failed := by
      rw [auditStateAt_succ]
      simp [auditStateAt_zero, processNextStage, initSim, stages, he]
    have hfrozen := stateAt_frozen_of_failed false (e :: envs)
      (initSim ⟨id, .coverage, 0, now, cfg, [], []⟩) 1 h1 k hk
    rw [hfrozen]
    simp [getAuditStatus, h1]

theorem c10_audit_start_witness :
    (auditStartHandler "a10" 5 (.obj [("timeRange", .str "7")])).1 =
      ⟨200, true, "a10", none⟩ ∧
    (auditStartHandler "a10" 5 (.obj [("timeRange", .str "7")])).2 =
      some ⟨"a10", .coverage, 0, 5, ⟨none, none, none, "7", none⟩, [], []⟩ ∧
    (getAuditStatus "a10" (some ((auditStateAt false [⟨false, .ok [], []⟩]
        (initSim ⟨"a10", .coverage, 0, 5, ⟨none, none, none, "7", none⟩, [], []⟩)) 2).session)).stage =
      .failed := by
  have h := c10_audit_start "a10" 5 (.obj [("timeRange", .str "7")])
    ⟨none, none, none, "7", none⟩ rfl
  exact ⟨h.1, h.2.1, (h.2.2.2 [] ⟨false, .ok [], []⟩ 2 rfl (by omega)).1⟩

lemma normalizeFinding_ne_null_eq (hid : String) (qs : List String) (idx : Nat)
    (c : Json) (h : c ≠ Json.null) :
    normalizeFinding hid qs idx c = some
      ⟨jsOr (c.get "id") (.str (hid ++ "-F" ++ padStart3 (idx + 1))),
       jsOr (c.get "severity") (.str "medium"),
       jsOr (c.get "title") (.str "Untitled Finding"),
       jsOr (c.get "description") (.str ""),
       (c.get "affectedEntities").asArray,
       (c.get "evidence").asArray,
       (c.get "evidence").asArray.length,
       (match c.get "confidence" with | .num n => n | _ => (50 : ℚ)),
       (if (c.get "queries").isArr && (c.get "queries").asArray.length > 0 then
          (c.get "queries").asArray
        else qs.map Json.str),
       jsOr (c.get "recommendation") (.str "")⟩ := by
  cases c <;> first
    | exact absurd rfl h
    | rfl

lemma normalizeFinding_null (hid : String) (qs : List String) (idx : Nat) :
    normalizeFinding hid qs idx Json.null = none := rfl

lemma normalizeFinding_severity_default (hid : String) (qs : List String) (idx : Nat)
    (c : Json) (f : Finding) (hf : normalizeFinding hid qs idx c = some f)
    (h : (c.get "severity").truthy = false) : f.severity = .str "medium" := by
  by_cases hc : c = Json.null
  · rw [hc, normalizeFinding_null] at hf
    exact Option.noConfusion hf
  · rw [normalizeFinding_ne_null_eq hid qs idx c hc] at hf
    rw [← Option.some.inj hf]
    simp [jsOr, h]

lemma normalizeFinding_severity_kept (hid : String) (qs : List String) (idx : Nat)
    (c : Json) (f : Finding) (hf : normalizeFinding hid qs idx c = some f)
    (h : (c.get "severity").truthy = true) : f.severity = c.get "severity" := by
  by_cases hc : c = Json.null
  · rw [hc, normalizeFinding_null] at hf
    exact Option.noConfusion hf
  · rw [normalizeFinding_ne_null_eq hid qs idx c hc] at hf
    rw [← Option.some.inj hf]
    simp [jsOr, h]

lemma normalizeFinding_confidence_num (hid : String) (qs : List String) (idx : Nat)
    (c : Json) (f : Finding) (hf : normalizeFinding hid qs idx c = some f)
    (q : ℚ) (h : c.get "confidence" = .num q) : f.confidence = q := by
  by_cases hc : c = Json.null
  · rw [hc, normalizeFinding_null] at hf
    exact Option.noConfusion hf
  · rw [normalizeFinding_ne_null_eq hid qs idx c hc] at hf
    rw [← Option.some.inj hf]
    simp [h]

lemma normalizeFinding_confidence_default (hid : String) (qs : List String) (idx : Nat)
    (c : Json) (f : Finding) (hf : normalizeFinding hid qs idx c = some f)
    (h : ∀ q : ℚ, c.get "confidence" ≠ .num q) : f.confidence = 50 := by
  by_cases hc : c = Json.null
  · rw [hc, normalizeFinding_null] at hf
    exact Option.noConfusion hf
  · rw [normalizeFinding_ne_null_eq hid qs idx c hc] at hf
    rw [← Option.some.inj hf]
    rcases hcc : c.get "confidence" <;> simp [hcc]
    exact absurd hcc (h _)

lemma normalizeFinding_evidence (hid : String) (qs : List String) (idx : Nat)
    (c : Json) (f : Finding) (hf : normalizeFinding hid qs idx c = some f) :
    f.evidence = (c.get "evidence").asArray ∧ f.evidenceCount = f.evidence.length := by
  by_cases hc : c = Json.null
  · rw [hc, normalizeFinding_null] at hf
    exact Option.noConfusion hf
  · rw [normalizeFinding_ne_null_eq hid qs idx c hc] at hf
    rw [← Option.some.inj hf]
    exact ⟨rfl, rfl⟩

lemma normalizeFinding_queries_default (hid : String) (qs : List String) (idx : Nat)
    (c : Json) (f : Finding) (hf : normalizeFinding hid qs idx c = some f)
    (h : (c.get "queries").isArr = false ∨ (c.get "queries").asArray.length = 0) :
    f.queries = qs.map Json.str := by
  by_cases hc : c = Json.null
  · rw [hc, normalizeFinding_null] at hf
    exact Option.noConfusion hf
  · rw [normalizeFinding_ne_null_eq hid qs idx c hc] at hf
    rw [← Option.some.inj hf]
    have hcond : ((c.get "queries").isArr && (c.get "queries").asArray.length > 0) = false := by
      rcases h with h | h <;> simp [h]
    simp only [hcond]
    simp

lemma normalizeFinding_queries_kept (hid : String) (qs : List String) (idx : Nat)
    (c : Json) (f : Finding) (hf : normalizeFinding hid qs idx c = some f)
    (h1 : (c.get "queries").isArr = true) (h2 : 0 < (c.get "queries").asArray.length) :
    f.queries = (c.get "queries").asArray := by
  by_cases hc : c = Json.null
  · rw [hc, normalizeFinding_null] at hf
    exact Option.noConfusion hf
  · rw [normalizeFinding_ne_null_eq hid qs idx c hc] at hf
    rw [← Option.some.inj hf]
    have hcond : ((c.get "queries").isArr && (c.get "queries").asArray.length > 0) = true := by
      simp [h1, h2]
    simp only [hcond]
    simp

lemma normalizeAll_of_mem_null (hid : String) (qs : List String) :
    ∀ (items : List Json) (k : Nat), Json.null ∈ items →
      normalizeAll hid qs k items = none := by
  intro items
  induction items with
  | nil => intro k h; simp at h
  | cons c rest ih =>
    intro k h
    rcases List.mem_cons.mp h with rfl | hrest
    · rfl
    · rcases hc : normalizeFinding hid qs k c with _ | f
      · simp [normalizeAll, hc]
      · simp [normalizeAll, hc, ih (k + 1) hrest]

lemma normalizeAll_of_no_null (hid : String) (qs : List String) :
    ∀ (items : List Json) (k : Nat), (∀ c ∈ items, c ≠ Json.null) →
      ∃ fs, normalizeAll hid qs k items = some fs ∧ fs.length = items.length ∧
        ∀ i (hi : i < items.length) (hi2 : i < fs.length),
          normalizeFinding hid qs (k + i) (items.get ⟨i, hi⟩) = some (fs.get ⟨i, hi2⟩) := by
  intro items
  induction items with
  | nil =>
    intro k _
    refine ⟨[], rfl, rfl, ?_⟩
    intro i hi
    simp at hi
  | cons c rest ih =>
    intro k h
    have hc : c ≠ Json.null := h c (List.mem_cons_self c rest)
    rcases hfc : normalizeFinding hid qs k c with _ | f
    · rw [normalizeFinding_ne_null_eq hid qs k c hc] at hfc
      exact absurd hfc (by simp)
    · rcases ih (k + 1) (fun x hx => h x (List.mem_cons_of_mem c hx)) with
        ⟨fs, hall, hlen, hidx⟩
      refine ⟨f :: fs, by simp [normalizeAll, hfc, hall], by simp [hlen], ?_⟩
      intro i hi hi2
      cases i with
      | zero => simpa using hfc
      | succ j =>
        have hj : j < rest.length := by simpa using hi
        have hj2 : j < fs.length := by simpa using hi2
        have harith : k + (j + 1) = k + 1 + j := by omega
        have := hidx j hj hj2
        rw [harith]
        simpa using this

lemma normalizeAll_evidence (hid : String) (qs : List String) :
    ∀ (items : List Json) (k : Nat) (fs : List Finding),
      normalizeAll hid qs k items = some fs →
      ∀ f ∈ fs, f.evidenceCount = f.evidence.length := by
  intro items
  induction items with
  | nil =>
    intro k fs h f hf
    simp [normalizeAll] at h
    subst h
    simp at hf
  | cons c rest ih =>
    intro k fs h f hf
    rcases hfc : normalizeFinding hid qs k c with _ | f0
    · simp [normalizeAll, hfc] at h
    · rcases hall : normalizeAll hid qs (k + 1) rest with _ | fs0
      · simp [normalizeAll, hfc, hall] at h
      · simp [normalizeAll, hfc, hall] at h
        subst h
        rcases List.mem_cons.mp hf with rfl | hf2
        · exact (normalizeFinding_evidence hid qs k c f hfc).2
        · exact ih (k + 1) fs0 hall f hf2

/-- Claim C4 counterexample: the final text `` ```json\n[null]\n``` ``
contains a fenced json block parsing to a one-candidate array, yet the
extraction yields the empty list rather than one normalized Finding:
inside the `parsed.map` callback the property access `f.evidence` on
the `null` candidate throws a TypeError, and the surrounding catch
returns `[]` for the whole array. -/
theorem c4_extract_findings_counterexample :
    jsonMatchOf "```json\n[null]\n```" = some "[null]" ∧
    jsParse "[null]" = some (.arr [Json.null]) ∧
    extractFindingsFromText "```json\n[null]\n```" ⟨"h1", "f.md", "c"⟩ [] = [] ∧
    (extractFindingsFromText "```json\n[null]\n```" ⟨"h1", "f.md", "c"⟩ []).length ≠
      ([Json.null] : List Json).length := by
  exact ⟨by decide, by rfl, by rfl, by decide⟩

/-- Claim C4 (amended): the hunt loop's parse step is total on the
final LLM text and never surfaces a thrown error: when nothing matches,
parsing throws, the parsed value is not an array, or the parsed array
contains a JSON null candidate (whose property access throws a
TypeError inside the map, caught by the surrounding try/catch), the
result is the empty list. When the matched text parses to an array
with no null candidate, every candidate is normalized into a Finding —
severity defaulting to "medium" when missing, confidence defaulting to
50 when not a number, evidenceCount equal to the evidence length, and
queries replaced by the executed-query list when the candidate's own
list is absent or empty. Every Finding produced satisfies
evidenceCount = evidence.length. -/
theorem c4_extract_findings (text : String) (hunt : Hunt) (qs : List String) :
    (∀ f ∈ extractFindingsFromText text hunt qs, f.evidenceCount = f.evidence.length) ∧
    (jsonMatchOf text = none → extractFindingsFromText text hunt qs = []) ∧
    (∀ s, jsonMatchOf text = some s → jsParse s = none →
      extractFindingsFromText text hunt qs = []) ∧
    (∀ s j, jsonMatchOf text = some s → jsParse s = some j → j.isArr = false →
      extractFindingsFromText text hunt qs = []) ∧
    (∀ s items, jsonMatchOf text = some s → jsParse s = some (.arr items) →
      (Json.null ∈ items → extractFindingsFromText text hunt qs = []) ∧
      ((∀ c ∈ items, c ≠ Json.null) →
        (extractFindingsFromText text hunt qs).length = items.length ∧
        ∀ i (hi : i < items.length) (hi2 : i < (extractFindingsFromText text hunt qs).length),
          ((c : Json) → c = items.get ⟨i, hi⟩ →
            (f : Finding) → f = (extractFindingsFromText text hunt qs).get ⟨i, hi2⟩ →
            ((c.get "severity").truthy = false → f.severity = .str "medium") ∧
            ((c.get "severity").truthy = true → f.severity = c.get "severity") ∧
            (∀ q : ℚ, c.get "confidence" = .num q → f.confidence = q) ∧
            ((∀ q : ℚ, c.get "confidence" ≠ .num q) → f.confidence = 50) ∧
            f.evidence = (c.get "evidence").asArray ∧
            f.evidenceCount = f.evidence.length ∧
            ((c.get "queries").isArr = false ∨ (c.get "queries").asArray.length = 0 →
              f.queries = qs.map Json.str) ∧
            ((c.get "queries").isArr = true → 0 < (c.get "queries").asArray.length →
              f.queries = (c.get "queries").asArray)))) := by
  refine ⟨?_, ?_, ?_, ?_, ?_⟩
  · intro f hf
    rcases h1 : jsonMatchOf text with _ | jt
    · simp [extractFindingsFromText, h1] at hf
    rcases h2 : jsParse jt with _ | j
    · simp [extractFindingsFromText, h1, h2] at hf
    cases j with
    | arr items =>
      rcases hall : normalizeAll hunt.id qs 0 items with _ | fs
      · simp [extractFindingsFromText, h1, h2, hall] at hf
      · simp only [extractFindingsFromText, h1, h2, hall] at hf
        exact normalizeAll_evidence hunt.id qs items 0 fs hall f hf
    | null => simp [extractFindingsFromText, h1, h2] at hf
    | bool b => simp [extractFindingsFromText, h1, h2] at hf
    | num n => simp [extractFindingsFromText, h1, h2] at hf
    | str s => simp [extractFindingsFromText, h1, h2] at hf
    | obj kvs => simp [extractFindingsFromText, h1, h2] at hf
  · intro h1
    simp [extractFindingsFromText, h1]
  · intro s h1 h2
    simp [extractFindingsFromText, h1, h2]
  · intro s j h1 h2 hj
    cases j <;> simp_all [extractFindingsFromText, Json.isArr]
  · intro s items h1 h2
    constructor
    · intro hnull
      simp [extractFindingsFromText, h1, h2, normalizeAll_of_mem_null hunt.id qs items 0 hnull]
    · intro hnonull
      rcases normalizeAll_of_no_null hunt.id qs items 0 hnonull with ⟨fs, hall, hlen, hidx⟩
      have hext : extractFindingsFromText text hunt qs = fs := by
        simp [extractFindingsFromText, h1, h2, hall]
      constructor
      · rw [hext, hlen]
      · intro i hi hi2
        have hi2f : i < fs.length := by rw [← hext]; exact hi2
        have hsome := hidx i hi hi2f
        rw [Nat.zero_add] at hsome
        have hget : (extractFindingsFromText text hunt qs).get ⟨i, hi2⟩ = fs.get ⟨i, hi2f⟩ := by
          revert hi2
          rw [hext]
          intro hi2
          rfl
        intro c hc f hf
        rw [hget] at hf
        rw [← hc] at hsome
        rw [← hf] at hsome
        exact ⟨normalizeFinding_severity_default _ _ _ _ _ hsome,
          normalizeFinding_severity_kept _ _ _ _ _ hsome,
          fun q => normalizeFinding_confidence_num _ _ _ _ _ hsome q,
          normalizeFinding_confidence_default _ _ _ _ _ hsome,
          (normalizeFinding_evidence _ _ _ _ _ hsome).1,
          (normalizeFinding_evidence _ _ _ _ _ hsome).2,
          normalizeFinding_queries_default _ _ _ _ _ hsome,
          fun hA hL => normalizeFinding_queries_kept _ _ _ _ _ hsome hA hL⟩

theorem c4_extract_findings_witness :
    extractFindingsFromText "no json at all" ⟨"h1", "f.md", "c"⟩ [] = [] ∧
    (extractFindingsFromText
        "Done. ```json\n[\x7b\"id\":\"X1\",\"severity\":\"high\",\"evidence\":[\"e1\",\"e2\"]\x7d]\n```"
        ⟨"h1", "f.md", "c"⟩ ["q1"]).length = 1 ∧
    (∀ f ∈ extractFindingsFromText
        "Done. ```json\n[\x7b\"id\":\"X1\",\"severity\":\"high\",\"evidence\":[\"e1\",\"e2\"]\x7d]\n```"
        ⟨"h1", "f.md", "c"⟩ ["q1"], f.evidenceCount = f.evidence.length) ∧
    extractFindingsFromText
        "Done. ```json\n[\x7b\"id\":\"X1\",\"severity\":\"high\",\"evidence\":[\"e1\",\"e2\"]\x7d]\n```"
        ⟨"h1", "f.md", "c"⟩ ["q1"] =
      [⟨.str "X1", .str "high", .str "Untitled Finding", .str "", [],
        [.str "e1", .str "e2"], 2, 50, [.str "q1"], .str ""⟩] ∧
    extractFindingsFromText "```json\n[true, null]\n```" ⟨"h1", "f.md", "c"⟩ [] = [] := by
  have h := c4_extract_findings
    "Done. ```json\n[\x7b\"id\":\"X1\",\"severity\":\"high\",\"evidence\":[\"e1\",\"e2\"]\x7d]\n```"
    ⟨"h1", "f.md", "c"⟩ ["q1"]
  have h0 := (c4_extract_findings "no json at all" ⟨"h1", "f.md", "c"⟩ []).2.1 (by rfl)
  have hnull := ((c4_extract_findings "```json\n[true, null]\n```" ⟨"h1", "f.md", "c"⟩ []).2.2.2.2
    "[true, null]" [Json.bool true, Json.null] (by decide) (by rfl)).1
    (List.mem_cons_of_mem _ (List.mem_cons_self _ _))
  refine ⟨h0, ((h.2.2.2.2
    "[\x7b\"id\":\"X1\",\"severity\":\"high\",\"evidence\":[\"e1\",\"e2\"]\x7d]"
    [Json.obj [("id", Json.str "X1"), ("severity", Json.str "high"),
      ("evidence", Json.arr [Json.str "e1", Json.str "e2"])]] (by decide) (by rfl)).2
    (by intro c hc; fin_cases hc; simp)).1,
    h.1, by rfl, hnull⟩

lemma find?_eq_some_split {α : Type} (p : α → Bool) :
    ∀ (l : List α) (a : α), l.find? p = some a →
      ∃ pre post, l = pre ++ a :: post ∧ p a = true ∧ ∀ x ∈ pre, p x = false := by
  intro l
  induction l with
  | nil => intro a h; simp [List.find?] at h
  | cons b t ih =>
    intro a h
    by_cases hb : p b = true
    · rw [List.find?_cons_of_pos _ hb] at h
      cases h
      exact ⟨[], t, rfl, hb, by simp⟩
    · rw [List.find?_cons_of_neg _ (by simpa using hb)] at h
      rcases ih a h with ⟨pre, post, heq, hp, hpre⟩
      refine ⟨b :: pre, post, by rw [heq]; rfl, hp, ?_⟩
      intro x hx
      rcases List.mem_cons.mp hx with rfl | hx2
      · simpa using hb
      · exact hpre x hx2

/-- Claim C6 counterexample: with discovered tool set
`["my_search_tool"]`, no name of either caller preference list is
present, so a preference-list resolution would fail with the "no
matching tool" error — yet the hunt executor's resolution selects
`my_search_tool` (its name contains "search"), contradicting the claim
that everywhere resolution is decided by the preference list and fails
rather than picking some other discovered tool. -/
theorem c6_tool_resolution_counterexample :
    pickTool ["my_search_tool"] queryToolPreference = none ∧
    pickTool ["my_search_tool"] infoToolPreference = none ∧
    huntResolveQueryTool [⟨"my_search_tool", none⟩] = .ok ⟨"my_search_tool", none⟩ := by
  exact ⟨by rfl, by rfl, by rfl⟩

/-- Claim C6 (amended): in the splunk HTTP handlers and the coverage
stage, tool resolution follows the preference-list policy — `pickTool`
returns the first preference name present in the discovered set, and
returns null exactly when no preference name is discovered, in which
case the query handler answers with the 400 "No query tool found"
error instead of selecting another tool. The hunt executor, however,
uses no preference list: it selects the first discovered tool whose
name contains "query" or "search" as a substring, and fails with its
"No query tool found in Splunk MCP server" error exactly when no
discovered name contains either substring. -/
theorem c6_tool_resolution (toolNames : List String) (pref : List String)
    (tools : List McpTool) :
    (∀ t, pickTool toolNames pref = some t →
      ∃ pre post, pref = pre ++ t :: post ∧ toolNames.contains t = true ∧
        ∀ p ∈ pre, toolNames.contains p = false) ∧
    (pickTool toolNames pref = none ↔ ∀ p ∈ pref, toolNames.contains p = false) ∧
    (∀ (call : List (String × String) → Except String Json) (spl : String),
      pickTool toolNames queryToolPreference = none →
      splunkQueryResolve toolNames call spl =
        ⟨400, false, none, none, some "No query tool found on MCP server."⟩) ∧
    (∀ t, findQueryTool tools = some t →
      ∃ pre post, tools = pre ++ t :: post ∧
        (strIncludes t.name "query" || strIncludes t.name "search") = true ∧
        ∀ u ∈ pre, (strIncludes u.name "query" || strIncludes u.name "search") = false) ∧
    (findQueryTool tools = none ↔
      ∀ u ∈ tools, (strIncludes u.name "query" || strIncludes u.name "search") = false) ∧
    (findQueryTool tools = none →
      huntResolveQueryTool tools = .error "No query tool found in Splunk MCP server") := by
  refine ⟨?_, ?_, ?_, ?_, ?_, ?_⟩
  · intro t h
    exact find?_eq_some_split _ pref t h
  · rw [pickTool, List.find?_eq_none]
    simp
  · intro call spl h
    simp [splunkQueryResolve, h]
  · intro t h
    exact find?_eq_some_split _ tools t h
  · rw [findQueryTool, List.find?_eq_none]
    simp
  · intro h
    simp [huntResolveQueryTool, h]

theorem c6_tool_resolution_witness :
    pickTool ["b", "c"] ["a", "b", "c"] = some "b" ∧
    (∃ pre post, (["a", "b", "c"] : List String) = pre ++ "b" :: post ∧
      (["b", "c"] : List String).contains "b" = true ∧
      ∀ p ∈ pre, (["b", "c"] : List String).contains p = false) ∧
    huntResolveQueryTool [] = .error "No query tool found in Splunk MCP server" := by
  have h := c6_tool_resolution ["b", "c"] ["a", "b", "c"] []
  exact ⟨by rfl, h.1 "b" (by rfl), h.2.2.2.2.2 (by rfl)⟩

/-- Claim C7: a query-tool invocation tries the argument shapes
`(query: spl)`, `(spl: spl)`, `(search: spl)` in that order against the
same tool name, returning the first result whose invocation does not
raise; a tool rejecting the first two shapes but accepting the third
yields success on the third attempt. If all three shapes raise, the
last attempt's error is surfaced (the HTTP handler wraps it in its
"Tool <name> failed: ..." message, the hunt executor rethrows it). -/
theorem c7_arg_shape_fallback (call : List (String × String) → Except String Json)
    (spl tool : String) :
    (∀ v, call [("query", spl)] = .ok v →
      splunkQueryDispatch tool call spl = ⟨200, true, some tool, some v, none⟩ ∧
      huntQueryOutcome call spl = .ok v) ∧
    (∀ e1 v, call [("query", spl)] = .error e1 → call [("spl", spl)] = .ok v →
      splunkQueryDispatch tool call spl = ⟨200, true, some tool, some v, none⟩ ∧
      huntQueryOutcome call spl = .ok v) ∧
    (∀ e1 e2 v, call [("query", spl)] = .error e1 → call [("spl", spl)] = .error e2 →
      call [("search", spl)] = .ok v →
      splunkQueryDispatch tool call spl = ⟨200, true, some tool, some v, none⟩ ∧
      huntQueryOutcome call spl = .ok v) ∧
    (∀ e1 e2 e3, call [("query", spl)] = .error e1 → call [("spl", spl)] = .error e2 →
      call [("search", spl)] = .error e3 →
      splunkQueryDispatch tool call spl =
        ⟨502, false, some tool, none, some ("Tool " ++ tool ++ " failed: " ++ e3)⟩ ∧
      huntQueryOutcome call spl = .error e3) := by
  refine ⟨?_, ?_, ?_, ?_⟩
  · intro v h1
    constructor <;>
      simp [splunkQueryDispatch, routesQueryLoop, queryArgStrategies,
        huntQueryOutcome, huntQueryLoop, h1]
  · intro e1 v h1 h2
    constructor <;>
      simp [splunkQueryDispatch, routesQueryLoop, queryArgStrategies,
        huntQueryOutcome, huntQueryLoop, h1, h2]
  · intro e1 e2 v h1 h2 h3
    constructor <;>
      simp [splunkQueryDispatch, routesQueryLoop, queryArgStrategies,
        huntQueryOutcome, huntQueryLoop, h1, h2, h3]
  · intro e1 e2 e3 h1 h2 h3
    constructor <;>
      simp [splunkQueryDispatch, routesQueryLoop, queryArgStrategies,
        huntQueryOutcome, huntQueryLoop, h1, h2, h3]

theorem c7_arg_shape_fallback_witness :
    splunkQueryDispatch "run_query"
      (fun args => if args = [("search", "x")] then .ok (.str "rows") else .error "shape rejected")
      "x" = ⟨200, true, some "run_query", some (.str "rows"), none⟩ ∧
    huntQueryOutcome
      (fun args => if args = [("search", "x")] then .ok (.str "rows") else .error "shape rejected")
      "x" = .ok (.str "rows") := by
  have h := (c7_arg_shape_fallback
    (fun args => if args = [("search", "x")] then .ok (.str "rows") else .error "shape rejected")
    "x" "run_query").2.2.1 "shape rejected" "shape rejected" (.str "rows")
    (by rfl) (by rfl) (by rfl)
  exact h

/-- Claim C8: every external call on the MCP client (connect,
listTools, callTool) made with a positive timeout is raced against that
timeout, so a call whose underlying operation never completes fails at
the timeout with a timeout error instead of waiting forever; the
timeout error is a distinct error kind (`McpError.timeout`, the
`Error` created by `withTimeout` itself) from the error produced when
the tool reports failure (`McpError.opFailure`), which is preserved
with its own provenance when it settles before the timer. -/
theorem c8_timeout_race (tmo : Nat) (h : 0 < tmo) :
    mcpConnect (some tmo) (.never : AsyncOutcome String Unit) =
      .completes tmo (.error (.timeout "MCP connect timed out")) ∧
    mcpListTools (some tmo) .never =
      .completes tmo (.error (.timeout "MCP tools/list timed out")) ∧
    mcpCallTool (some tmo) .never =
      .completes tmo (.error (.timeout "MCP tools/call timed out")) ∧
    (∀ (t : Nat) (e : String), t < tmo →
      mcpCallTool (some tmo) (.completes t (.error e)) =
        .completes t (.error (.opFailure e))) ∧
    (∀ (t : Nat) (v : Json), t < tmo →
      mcpCallTool (some tmo) (.completes t (.ok v)) = .completes t (.ok v)) ∧
    (∀ msg e, McpError.timeout msg ≠ McpError.opFailure e) := by
  have hne : ¬ tmo = 0 := by omega
  refine ⟨?_, ?_, ?_, ?_, ?_, ?_⟩
  · simp [mcpConnect, withTimeout, hne]
  · simp [mcpListTools, withTimeout, hne]
  · simp [mcpCallTool, withTimeout, hne]
  · intro t e ht
    simp [mcpCallTool, withTimeout, hne, ht, Except.mapError]
  · intro t v ht
    simp [mcpCallTool, withTimeout, hne, ht, Except.mapError]
  · intro msg e hmt
    exact McpError.noConfusion hmt

theorem c8_timeout_race_witness :
    mcpCallTool (some 5000) (.never : AsyncOutcome String Json) =
      .completes 5000 (.error (.timeout "MCP tools/call timed out")) ∧
    mcpCallTool (some 5000) (.completes 10 (.error "tool exploded")) =
      .completes 10 (.error (.opFailure "tool exploded")) ∧
    McpError.timeout "MCP tools/call timed out" ≠ McpError.opFailure "tool exploded" := by
  have h := c8_timeout_race 5000 (by omega)
  exact ⟨h.2.2.1, h.2.2.2.1 10 "tool exploded" (by omega), h.2.2.2.2.2 _ _⟩

/-- Claim C9 counterexample: in the hunt executor's scope, with the
body succeeding and `close()` rejecting, the operation's outcome is the
close error — the close error is not swallowed and replaces the prior
result, because the executor's `finally` block awaits `close()` without
a catch. -/
theorem c9_close_counterexample :
    (huntClientScope (.ok 0) (fun _ => (.ok 1 : Except String Nat))
        (fun _ => .error "close failed")).1 = .error "close failed" ∧
    (huntClientScope (.ok 0) (fun _ => (.ok 1 : Except String Nat))
        (fun _ => .error "close failed")).1 ≠ .ok 1 := by
  refine ⟨by rfl, by simp [huntClientScope, finallyBareClose]⟩

/-- Claim C9 (amended): whenever an operation opened a tool-provider
client, `close` is invoked on every exit path at all three call sites.
In the two splunk HTTP handlers and the coverage stage the close call
is wrapped in its own try/catch, so a close error never alters the
operation's outcome; in the hunt executor the `finally` block calls
`close` without a catch, so a close error propagates and replaces the
prior result or failure. -/
theorem c9_close_discipline {β α : Type} :
    (∀ (openR : Except String β) (body : β → Except String α)
        (closeR : β → Except String Unit) (c : β), openR = .ok c →
      (handlerClientScope openR body closeR).2 = true ∧
      (handlerClientScope openR body closeR).1 = body c) ∧
    (∀ (openR : Except String β) (body : β → Except String α)
        (closeR : β → Except String Unit) (c : β), openR = .ok c →
      (huntClientScope openR body closeR).2 = true) ∧
    (∀ (openR : Except String β) (body : β → Except String α)
        (closeR : β → Except String Unit) (c : β), openR = .ok c → closeR c = .ok () →
      (huntClientScope openR body closeR).1 = body c) ∧
    (∀ (openR : Except String β) (body : β → Except String α)
        (closeR : β → Except String Unit) (c : β) (e : String),
      openR = .ok c → closeR c = .error e →
      (huntClientScope openR body closeR).1 = .error e) := by
  refine ⟨?_, ?_, ?_, ?_⟩
  · intro openR body closeR c h
    subst h
    cases hc : closeR c <;>
      simp [handlerClientScope, finallySwallowClose, hc]
  · intro openR body closeR c h
    subst h
    simp [huntClientScope]
  · intro openR body closeR c h hc
    subst h
    simp [huntClientScope, finallyBareClose, hc]
  · intro openR body closeR c e h hc
    subst h
    simp [huntClientScope, finallyBareClose, hc]

theorem c9_close_discipline_witness :
    (handlerClientScope (.ok 0) (fun _ => (.error "tool failed" : Except String Nat))
        (fun _ => .error "close failed")).1 = .error "tool failed" ∧
    (handlerClientScope (.ok 0) (fun _ => (.error "tool failed" : Except String Nat))
        (fun _ => .error "close failed")).2 = true ∧
    (huntClientScope (.ok 0) (fun _ => (.ok 1 : Except String Nat))
        (fun _ => .ok ())).1 = .ok 1 := by
  have h := c9_close_discipline (β := Nat) (α := Nat)
  exact ⟨(h.1 _ _ _ 0 rfl).2, (h.1 _ _ _ 0 rfl).1,
    h.2.2.1 _ _ _ 0 rfl rfl⟩
